import Mathlib

/-!
# Verification of the IntelliFill field-mapping core

Shallow embedding of `src/src/algorithms/field-mapping-core.py`
(`IntelligentFieldMapper` and its helpers) and proofs about it.

Modelling conventions:
* Python floats are modelled as rationals (`ℚ`); every constant of the source
  (`0.3`, `0.9`, `0.1`, …) is an exact rational here and all arithmetic in the
  scoring path is exact in the source's float range of interest.
* External collaborators (rapidfuzz string metrics, the BERT embedding path,
  sklearn's `TfidfVectorizer.fit_transform` and `cosine_similarity`, Python's
  `re.search`) are parameters of the embedded functions; the code under
  verification is everything the Python module computes itself.
* Python dicts preserve insertion order; grouping and `max` over dicts is
  modelled with lists in the same order (`firstOccAux`, `pyMaxBy`, `pyMaxKey`);
  Python's `max` returns the first element attaining the maximum.
* `metadata` dictionaries (`Dict[str, Any]`, diagnostic only: they carry the
  similarity breakdown and type names and are never read by the engine) are
  omitted from the record types.
-/

set_option maxHeartbeats 1000000

/-- `FieldType` enumeration of `field-mapping-core.py`. -/
inductive FieldType where
  | TEXT | EMAIL | PHONE | DATE | NUMBER | CURRENCY | ADDRESS | NAME | BOOLEAN | SIGNATURE | UNKNOWN
deriving DecidableEq, Repr, Fintype

/-- `MatchingStrategy` enumeration of `field-mapping-core.py`. -/
inductive MatchingStrategy where
  | EXACT | FUZZY | SEMANTIC | RULE_BASED | ML_CLASSIFICATION | HYBRID
deriving DecidableEq, Repr

/-- `DocumentField` dataclass (metadata dict omitted, value kept as a string). -/
structure DocumentField where
  name : String
  value : String := ""
  field_type : FieldType
  context : String := ""
  position : Nat × Nat := (0, 0)
deriving DecidableEq, Repr

/-- `FormField` dataclass (metadata dict omitted). -/
structure FormField where
  name : String
  field_type : FieldType
  required : Bool := false
  options : List String := []
  validation_pattern : String := ""
  position : Nat × Nat := (0, 0)
deriving DecidableEq, Repr

/-- `FieldMapping` dataclass (metadata dict omitted). -/
structure FieldMapping where
  source_field : String
  target_field : String
  confidence_score : ℚ
  field_type : FieldType
  matching_strategy : MatchingStrategy
deriving DecidableEq, Repr

/-- The configuration keys the engine reads, with the defaults of
`_get_default_config` (which are also the fallbacks of every
`self.config.get(key, default)` read).  The collaborator-selection strings
(`bert_model_name`, `spacy_model`) are not part of the scoring logic. -/
structure MapperConfig where
  similarity_threshold : ℚ := 7/10
  confidence_threshold : ℚ := 3/5
  enable_semantic_matching : Bool := true
  enable_fuzzy_matching : Bool := true
  enable_rule_based : Bool := true
  fuzzy_ratio_weight : ℚ := 3/10
  semantic_weight : ℚ := 2/5
  rule_weight : ℚ := 3/10
  max_suggestions : Nat := 5
deriving DecidableEq, Repr

/-- `_get_default_config`. -/
def default_config : MapperConfig := {}

/-- The dictionary returned by `_compute_similarity_matrices`: up to three
matrices, keyed (in insertion order) `fuzzy`, `semantic`, `rule_based`.
A matrix is a function from the two indices to a score. -/
structure SimilarityMatrices where
  fuzzy : Option (Nat → Nat → ℚ) := none
  semantic : Option (Nat → Nat → ℚ) := none
  rule_based : Option (Nat → Nat → ℚ) := none

/-- The `compatible_types` dictionary of `_calculate_type_compatibility_bonus`. -/
def compatible_types : FieldType × FieldType → Option ℚ
  | (FieldType.TEXT, FieldType.NAME) => some (1/10)
  | (FieldType.TEXT, FieldType.ADDRESS) => some (1/10)
  | (FieldType.NUMBER, FieldType.CURRENCY) => some (3/20)
  | (FieldType.TEXT, FieldType.EMAIL) => some (1/10)
  | (FieldType.TEXT, FieldType.PHONE) => some (1/10)
  | _ => none

/-- `_calculate_type_compatibility_bonus`: 0.2 on identical declared types,
else the table looked up with the pair and then the reversed pair, else 0. -/
def calculate_type_compatibility_bonus (doc_field : DocumentField) (form_field : FormField) : ℚ :=
  if doc_field.field_type = form_field.field_type then 1/5
  else
    let type_pair := (doc_field.field_type, form_field.field_type)
    let reverse_pair := (form_field.field_type, doc_field.field_type)
    (compatible_types type_pair).getD ((compatible_types reverse_pair).getD 0)

/-- `_calculate_confidence_score`: accumulates `score · weight` and `weight`
over the matrices present, adds `type_bonus · 0.1` to the accumulated score,
divides by the accumulated weight when positive (else 0), and caps at 1. -/
def calculate_confidence_score (config : MapperConfig) (doc_field : DocumentField)
    (form_field : FormField) (similarity_matrices : SimilarityMatrices)
    (doc_index form_index : Nat) : ℚ :=
  let acc1 : ℚ × ℚ :=
    match similarity_matrices.fuzzy with
    | some m => (m doc_index form_index * config.fuzzy_ratio_weight, config.fuzzy_ratio_weight)
    | none => (0, 0)
  let acc2 : ℚ × ℚ :=
    match similarity_matrices.semantic with
    | some m => (acc1.1 + m doc_index form_index * config.semantic_weight,
                 acc1.2 + config.semantic_weight)
    | none => acc1
  let acc3 : ℚ × ℚ :=
    match similarity_matrices.rule_based with
    | some m => (acc2.1 + m doc_index form_index * config.rule_weight,
                 acc2.2 + config.rule_weight)
    | none => acc2
  let type_bonus := calculate_type_compatibility_bonus doc_field form_field
  let total_score := acc3.1 + type_bonus * (1/10)
  let total_weight := acc3.2
  let confidence := if 0 < total_weight then total_score / total_weight else 0
  min confidence 1

/-- Python's `max(x :: rest, key)` over the confidence key: the fold keeps the
current element unless a strictly larger one appears, so the first maximal
element wins. -/
def pyMaxKey (head : String × ℚ) (rest : List (String × ℚ)) : String :=
  (rest.foldl (fun acc p => if acc.2 < p.2 then p else acc) head).1

/-- `_determine_matching_strategy`: builds the `scores` dict in the insertion
order of `_compute_similarity_matrices` (`fuzzy`, `semantic`, `rule_based`),
takes Python's `max` over it, and maps the winning key through
`strategy_mapping` (`.get` default `HYBRID`); `EXACT` when no matrix exists. -/
def determine_matching_strategy (similarity_matrices : SimilarityMatrices)
    (doc_index form_index : Nat) : MatchingStrategy :=
  let scores : List (String × ℚ) :=
    (match similarity_matrices.fuzzy with
     | some m => [("fuzzy", m doc_index form_index)] | none => []) ++
    (match similarity_matrices.semantic with
     | some m => [("semantic", m doc_index form_index)] | none => []) ++
    (match similarity_matrices.rule_based with
     | some m => [("rule_based", m doc_index form_index)] | none => [])
  match scores with
  | [] => MatchingStrategy.EXACT
  | s :: rest =>
    let best_strategy := pyMaxKey s rest
    if best_strategy = "fuzzy" then MatchingStrategy.FUZZY
    else if best_strategy = "semantic" then MatchingStrategy.SEMANTIC
    else if best_strategy = "rule_based" then MatchingStrategy.RULE_BASED
    else MatchingStrategy.HYBRID

/-- Python's `str.lower()` (character-by-character lowercasing). -/
def pyLower (s : String) : String := String.mk (s.data.map Char.toLower)

/-- List-of-characters version of `needle == haystack[i:i+len(needle)]`. -/
def listStartsWith : List Char → List Char → Bool
  | _, [] => true
  | [], _ :: _ => false
  | c :: cs, d :: ds => c == d && listStartsWith cs ds

/-- Substring containment on character lists. -/
def listContainsSub (hay sub : List Char) : Bool :=
  match hay with
  | [] => sub.isEmpty
  | c :: t => listStartsWith (c :: t) sub || listContainsSub t sub

/-- Python's `sub in hay` on strings (substring containment). -/
def pyIn (sub hay : String) : Bool := listContainsSub hay.toList sub.toList

/-- Helper for `pySplit`: accumulates the current word (reversed). -/
def splitWsAux : List Char → List Char → List String
  | [], acc => if acc.isEmpty then [] else [String.mk acc.reverse]
  | c :: cs, acc =>
    if c.isWhitespace then
      (if acc.isEmpty then [] else [String.mk acc.reverse]) ++ splitWsAux cs []
    else splitWsAux cs (c :: acc)

/-- Python's `str.split()` with no argument: split on whitespace runs,
dropping empty pieces. -/
def pySplit (s : String) : List String := splitWsAux s.data []

/-- `_infer_field_type`: target declared type first, then source declared
type, then keyword scan of the lowercased source name, defaulting to TEXT. -/
def infer_field_type (doc_field : DocumentField) (form_field : FormField) : FieldType :=
  if form_field.field_type ≠ FieldType.UNKNOWN then form_field.field_type
  else if doc_field.field_type ≠ FieldType.UNKNOWN then doc_field.field_type
  else
    let field_name := pyLower doc_field.name
    if ["email", "e-mail"].any (fun term => pyIn term field_name) then FieldType.EMAIL
    else if ["phone", "mobile", "tel"].any (fun term => pyIn term field_name) then FieldType.PHONE
    else if ["date", "birth", "dob"].any (fun term => pyIn term field_name) then FieldType.DATE
    else if ["name", "first", "last"].any (fun term => pyIn term field_name) then FieldType.NAME
    else if ["address", "street", "city"].any (fun term => pyIn term field_name) then
      FieldType.ADDRESS
    else if ["amount", "price", "salary"].any (fun term => pyIn term field_name) then
      FieldType.CURRENCY
    else FieldType.TEXT

/-- The static `patterns` list of `_apply_mapping_rules` (regex source pairs). -/
def mapping_rule_patterns : List (String × String) :=
  [("(first|given).*name", "(first|given).*name"),
   ("(last|family|sur).*name", "(last|family|sur).*name"),
   ("full.*name", "(full|complete).*name"),
   ("email.*address", "email"),
   ("phone.*number", "phone"),
   ("mobile.*number", "(mobile|cell)"),
   ("street.*address", "(street|address)"),
   ("city", "city"),
   ("state", "state"),
   ("zip.*code", "(zip|postal)"),
   ("birth.*date", "(birth|dob)"),
   ("date.*birth", "(birth|dob)"),
   ("salary", "(salary|income)"),
   ("amount", "amount")]

/-- `_apply_mapping_rules`.  `re_search pat s` stands for Python's
`re.search(pat, s)` (the regex engine is an external collaborator); everything
else — the early return on case-insensitive equality, the max over the pattern
table, substring matching, and the Jaccard word-overlap score — is the
source's own logic. -/
def apply_mapping_rules (re_search : String → String → Bool)
    (doc_field form_field : String) : ℚ :=
  let doc_lower := pyLower doc_field
  let form_lower := pyLower form_field
  if doc_lower = form_lower then 1
  else
    let score1 := mapping_rule_patterns.foldl
      (fun score pat =>
        if re_search pat.1 doc_lower && re_search pat.2 form_lower then max score (9/10)
        else score) (0 : ℚ)
    let score2 :=
      if pyIn doc_lower form_lower || pyIn form_lower doc_lower then max score1 (7/10) else score1
    let doc_words := (pySplit doc_lower).dedup
    let form_words := (pySplit form_lower).dedup
    let overlap := (doc_words.filter (fun w => form_words.contains w)).length
    let total_words := doc_words.length + (form_words.filter (fun w => !doc_words.contains w)).length
    if 0 < total_words then max score2 ((overlap : ℚ) / (total_words : ℚ) * (4/5)) else score2

/-- `_compute_fuzzy_matrix`, with the three rapidfuzz metrics (which return
percentages in `[0,100]`) as collaborators. -/
def compute_fuzzy_matrix (fuzz_ratio fuzz_part_ratio fuzz_token_sort_ratio : String → String → ℚ)
    (doc_fields form_fields : List String) : Nat → Nat → ℚ :=
  fun i j =>
    let d := pyLower (doc_fields.getD i "")
    let f := pyLower (form_fields.getD j "")
    (fuzz_ratio d f / 100) * (2/5) + (fuzz_part_ratio d f / 100) * (3/10) +
      (fuzz_token_sort_ratio d f / 100) * (3/10)

/-- `_compute_rule_based_matrix`. -/
def compute_rule_based_matrix (re_search : String → String → Bool)
    (doc_fields form_fields : List String) : Nat → Nat → ℚ :=
  fun i j => apply_mapping_rules re_search (doc_fields.getD i "") (form_fields.getD j "")

/-- `_compute_similarity_matrices`: each provider is config-gated; the
semantic entry additionally requires the BERT model to have been initialized
(`self.bert_model` non-null). -/
def compute_similarity_matrices (config : MapperConfig)
    (fuzzy_matrix semantic_matrix : Nat → Nat → ℚ) (bert_model_available : Bool)
    (re_search : String → String → Bool)
    (doc_fields form_fields : List String) : SimilarityMatrices where
  fuzzy := if config.enable_fuzzy_matching then some fuzzy_matrix else none
  semantic :=
    if config.enable_semantic_matching && bert_model_available then some semantic_matrix else none
  rule_based :=
    if config.enable_rule_based then
      some (compute_rule_based_matrix re_search doc_fields form_fields)
    else none

/-- Stable insertion of one element into a list sorted by descending
confidence (ties keep the already-placed element first). -/
def insertDesc (x : FieldMapping) : List FieldMapping → List FieldMapping
  | [] => [x]
  | y :: ys =>
    if y.confidence_score ≤ x.confidence_score then x :: y :: ys else y :: insertDesc x ys

/-- Python's stable `list.sort(key=confidence, reverse=True)`. -/
def sortByConfidenceDesc : List FieldMapping → List FieldMapping
  | [] => []
  | x :: xs => insertDesc x (sortByConfidenceDesc xs)

/-- `_find_mapping_candidates`: score every form field, keep pairs at or above
`similarity_threshold`, sort descending by confidence, truncate to
`max_suggestions`. -/
def find_mapping_candidates (config : MapperConfig) (doc_field : DocumentField)
    (form_fields : List FormField) (similarity_matrices : SimilarityMatrices)
    (doc_index : Nat) : List FieldMapping :=
  let candidates := form_fields.enum.filterMap (fun p =>
    let confidence :=
      calculate_confidence_score config doc_field p.2 similarity_matrices doc_index p.1
    if config.similarity_threshold ≤ confidence then
      some { source_field := doc_field.name
             target_field := p.2.name
             confidence_score := confidence
             field_type := infer_field_type doc_field p.2
             matching_strategy := determine_matching_strategy similarity_matrices doc_index p.1 }
    else none)
  (sortByConfidenceDesc candidates).take config.max_suggestions

/-- Python's `max(x :: rest, key=confidence)`: first maximal element. -/
def pyMaxBy : List FieldMapping → FieldMapping → FieldMapping
  | [], x => x
  | y :: ys, x => pyMaxBy ys (if x.confidence_score < y.confidence_score then y else x)

/-- Key order of a Python dict built by insertion: first occurrences, in
order, of the elements not already seen. -/
def firstOccAux : List String → List String → List String
  | [], _ => []
  | x :: xs, seen =>
    if x ∈ seen then firstOccAux xs seen else x :: firstOccAux xs (x :: seen)

/-- First occurrences of a list of strings, in order. -/
def firstOccurrences (l : List String) : List String := firstOccAux l []

/-- `_resolve_mapping_conflicts`: group by target field (a Python dict, so
groups are keyed by first occurrence and each group preserves input order);
groups of size one pass through, larger groups keep Python's
`max(group, key=confidence)`. -/
def resolve_mapping_conflicts (mappings : List FieldMapping) : List FieldMapping :=
  (firstOccurrences (mappings.map (fun m => m.target_field))).filterMap (fun t =>
    match mappings.filter (fun m => m.target_field == t) with
    | [] => none
    | g :: gs => some (if gs.isEmpty then g else pyMaxBy gs g))

/-- The selection loop of `map_fields`: for each document field (with its
index), the best candidate — Python's `max` over the candidate list — kept
when it clears `confidence_threshold`; fields without candidates or whose
best candidate misses the floor contribute nothing. -/
def best_mappings (config : MapperConfig) (similarity_matrices : SimilarityMatrices)
    (document_fields : List DocumentField) (form_fields : List FormField) :
    List FieldMapping :=
  document_fields.enum.filterMap (fun p =>
    match find_mapping_candidates config p.2 form_fields similarity_matrices p.1 with
    | [] => none
    | c :: cs =>
      let best_mapping := pyMaxBy cs c
      if config.confidence_threshold ≤ best_mapping.confidence_score then some best_mapping
      else none)

/-- `map_fields` (the matrices, already assembled by
`_compute_similarity_matrices`, are a parameter): for each document field take
the best candidate, keep it when it clears `confidence_threshold`, then
resolve conflicts. -/
def map_fields (config : MapperConfig) (similarity_matrices : SimilarityMatrices)
    (document_fields : List DocumentField) (form_fields : List FormField) :
    List FieldMapping :=
  resolve_mapping_conflicts
    (best_mappings config similarity_matrices document_fields form_fields)

/-- The mapping `_resolve_mapping_conflicts` emits for a target group: none
for an absent target, else Python's `max` of the group (`pyMaxBy gs g` equals
`g` on singleton groups, so the source's size-one special case coincides). -/
def conflict_survivor (mappings : List FieldMapping) (t : String) : Option FieldMapping :=
  match mappings.filter (fun m => m.target_field == t) with
  | [] => none
  | g :: gs => some (pyMaxBy gs g)

/-- `__init__` / `_initialize_components` as far as configuration is
concerned: `self.config = config or self._get_default_config()` (no
validation of any kind), and on NLP initialization failure the
`enable_semantic_matching` flag is forced off.  `nlp_init_ok` stands for the
collaborator initialization succeeding. -/
def mapper_init_config (config : Option MapperConfig) (nlp_init_ok : Bool) : MapperConfig :=
  let c := config.getD default_config
  if c.enable_semantic_matching && !nlp_init_ok then
    { c with enable_semantic_matching := false }
  else c

/-- `_compute_tfidf_similarity` with its fallible collaborators:
`fit_transform` (sklearn, which raises e.g. on an empty vocabulary) applied to
the concatenated corpus, then the row slicing of the source, then
`cosine_similarity`.  The source wraps none of this in a try/except, so a
collaborator error propagates. -/
def compute_tfidf_similarityE
    (fit_transform : List String → Except String (List (List ℚ)))
    (cos_sim : List (List ℚ) → List (List ℚ) → Nat → Nat → ℚ)
    (doc_fields form_fields : List String) : Except String (Nat → Nat → ℚ) :=
  match fit_transform (doc_fields ++ form_fields) with
  | Except.error e => Except.error e
  | Except.ok tfidf_matrix =>
    let doc_matrix := tfidf_matrix.take doc_fields.length
    let form_matrix := tfidf_matrix.drop doc_fields.length
    Except.ok (cos_sim doc_matrix form_matrix)

/-- `_compute_semantic_matrix`: the try-block (BERT embeddings plus cosine) is
one fallible collaborator result; on its failure the except-block calls the
TF-IDF fallback, whose own failure is not caught. -/
def compute_semantic_matrixE (bert_embed_cosine : Except String (Nat → Nat → ℚ))
    (fit_transform : List String → Except String (List (List ℚ)))
    (cos_sim : List (List ℚ) → List (List ℚ) → Nat → Nat → ℚ)
    (doc_fields form_fields : List String) : Except String (Nat → Nat → ℚ) :=
  match bert_embed_cosine with
  | Except.ok matrix => Except.ok matrix
  | Except.error _ => compute_tfidf_similarityE fit_transform cos_sim doc_fields form_fields

/-- `_compute_similarity_matrices` with the fallible semantic path threaded
through: an uncaught semantic-path error aborts matrix assembly. -/
def compute_similarity_matricesE (config : MapperConfig)
    (fuzzy_matrix : Nat → Nat → ℚ) (bert_embed_cosine : Except String (Nat → Nat → ℚ))
    (fit_transform : List String → Except String (List (List ℚ)))
    (cos_sim : List (List ℚ) → List (List ℚ) → Nat → Nat → ℚ)
    (bert_model_available : Bool) (re_search : String → String → Bool)
    (doc_fields form_fields : List String) : Except String SimilarityMatrices :=
  let fz := if config.enable_fuzzy_matching then some fuzzy_matrix else none
  let rb :=
    if config.enable_rule_based then
      some (compute_rule_based_matrix re_search doc_fields form_fields)
    else none
  if config.enable_semantic_matching && bert_model_available then
    match compute_semantic_matrixE bert_embed_cosine fit_transform cos_sim
        doc_fields form_fields with
    | Except.error e => Except.error e
    | Except.ok sm => Except.ok { fuzzy := fz, semantic := some sm, rule_based := rb }
  else Except.ok { fuzzy := fz, semantic := none, rule_based := rb }

/-- `map_fields` end to end, with the fallible matrix-assembly step: an
uncaught exception from the semantic path aborts the whole batch. -/
def map_fieldsE (config : MapperConfig)
    (fuzzy_matrix : Nat → Nat → ℚ) (bert_embed_cosine : Except String (Nat → Nat → ℚ))
    (fit_transform : List String → Except String (List (List ℚ)))
    (cos_sim : List (List ℚ) → List (List ℚ) → Nat → Nat → ℚ)
    (bert_model_available : Bool) (re_search : String → String → Bool)
    (document_fields : List DocumentField) (form_fields : List FormField) :
    Except String (List FieldMapping) :=
  let doc_names := document_fields.map DocumentField.name
  let form_names := form_fields.map FormField.name
  match compute_similarity_matricesE config fuzzy_matrix bert_embed_cosine fit_transform
      cos_sim bert_model_available re_search doc_names form_names with
  | Except.error e => Except.error e
  | Except.ok ms => Except.ok (map_fields config ms document_fields form_fields)

/-! ## Specification-side definitions

These follow the wording of `spec.md` §4.2 (score fusion), for comparison
with the source's `_calculate_confidence_score`. -/

/-- The active providers at a pair, as (weight, matrix entry) pairs — the
`w_p`, `matrix_p[i][j]` of spec §4.2. -/
def spec_active_provider_entries (config : MapperConfig)
    (similarity_matrices : SimilarityMatrices) (i j : Nat) : List (ℚ × ℚ) :=
  (match similarity_matrices.fuzzy with
   | some m => [(config.fuzzy_ratio_weight, m i j)] | none => []) ++
  (match similarity_matrices.semantic with
   | some m => [(config.semantic_weight, m i j)] | none => []) ++
  (match similarity_matrices.rule_based with
   | some m => [(config.rule_weight, m i j)] | none => [])

/-- The spec's `typeBonus`: 0.2 on identical declared types, else the static
symmetric compatibility table, else 0. -/
def spec_type_bonus (doc_t form_t : FieldType) : ℚ :=
  if doc_t = form_t then 1/5
  else
    match compatible_types (doc_t, form_t) with
    | some b => b
    | none =>
      match compatible_types (form_t, doc_t) with
      | some b => b
      | none => 0

/-- The fused confidence exactly as spec §4.2 words it:
`(Σ_p w_p · matrix_p[i][j]) / (Σ_p w_p) + 0.1 · typeBonus`, clamped to
`[0,1]`; 0 when no providers are active. -/
def spec_fused_confidence (config : MapperConfig) (doc_field : DocumentField)
    (form_field : FormField) (similarity_matrices : SimilarityMatrices) (i j : Nat) : ℚ :=
  let entries := spec_active_provider_entries config similarity_matrices i j
  if entries.isEmpty then 0
  else
    let w_sum := (entries.map Prod.fst).sum
    let s_sum := (entries.map (fun p => p.1 * p.2)).sum
    min (max (s_sum / w_sum +
      (1/10) * spec_type_bonus doc_field.field_type form_field.field_type) 0) 1

/-! ## Concrete instances used by witnesses and counterexamples -/

/-- The configuration of the repository's own test fixture
(`tests/test_field_mapping.py`, `TestFieldMappingCore.mapper`): semantic
matching disabled, fuzzy and rule-based enabled, thresholds 0.6 / 0.5,
remaining keys at their `config.get` defaults. -/
def exact_match_test_config : MapperConfig :=
  { similarity_threshold := 3/5, confidence_threshold := 1/2,
    enable_semantic_matching := false, enable_fuzzy_matching := true,
    enable_rule_based := true }

/-- The matrices `_compute_similarity_matrices` assembles for the exact-match
scenario (source `"firstName"` vs target `"firstName"`): the three rapidfuzz
metrics all return 100 on identical lowercased strings, the semantic provider
is disabled, and the rule-based matrix is computed by the source itself
(the regex collaborator is irrelevant: the exact-equality early return of
`_apply_mapping_rules` fires first). -/
def exact_match_test_matrices : SimilarityMatrices :=
  compute_similarity_matrices exact_match_test_config
    (compute_fuzzy_matrix (fun _ _ => 100) (fun _ _ => 100) (fun _ _ => 100)
      ["firstName"] ["firstName"])
    (fun _ _ => 0) false (fun _ _ => false) ["firstName"] ["firstName"]

/-- The document field of the exact-match scenario. -/
def exact_match_doc : DocumentField :=
  { name := "firstName", value := "John", field_type := FieldType.NAME }

/-- The form field of the exact-match scenario. -/
def exact_match_form : FormField :=
  { name := "firstName", field_type := FieldType.NAME }

/-- Matrices with a single active provider (fuzzy) whose entry is 0
everywhere. -/
def single_zero_fuzzy_matrices : SimilarityMatrices :=
  { fuzzy := some (fun _ _ => 0) }

/-- Matrices with all three providers active and every raw entry 1. -/
def all_ones_matrices : SimilarityMatrices :=
  { fuzzy := some (fun _ _ => 1), semantic := some (fun _ _ => 1),
    rule_based := some (fun _ _ => 1) }

/-- Matrices with all three providers active and every raw entry 4/5. -/
def all_p8_matrices : SimilarityMatrices :=
  { fuzzy := some (fun _ _ => 4/5), semantic := some (fun _ _ => 4/5),
    rule_based := some (fun _ _ => 4/5) }

/-- An invalid configuration: negative fusion weight and thresholds outside
`[0,1]`. -/
def invalid_config : MapperConfig :=
  { similarity_threshold := 2, confidence_threshold := -1, fuzzy_ratio_weight := -1 }

/-- The spec's conflict scenario, first mapping: `"doc_field1"` at 0.8. -/
def conflict_mapping1 : FieldMapping :=
  { source_field := "doc_field1", target_field := "form_field", confidence_score := 4/5,
    field_type := FieldType.TEXT, matching_strategy := MatchingStrategy.FUZZY }

/-- The spec's conflict scenario, second mapping: `"doc_field2"` at 0.7. -/
def conflict_mapping2 : FieldMapping :=
  { source_field := "doc_field2", target_field := "form_field", confidence_score := 7/10,
    field_type := FieldType.TEXT, matching_strategy := MatchingStrategy.FUZZY }

/-- The mapping the source actually returns for the exact-match scenario
(fuzzy entry 1, rule entry 1, fused confidence capped at 1, strategy decided
by `_determine_matching_strategy`). -/
def exact_match_result : FieldMapping :=
  { source_field := "firstName", target_field := "firstName", confidence_score := 1,
    field_type := FieldType.NAME, matching_strategy := MatchingStrategy.FUZZY }

/-! ## Helper lemmas -/

attribute [local semireducible] Rat.mul Rat.inv Rat.add Rat.sub Rat.ofScientific

theorem pyMaxBy_mem (l : List FieldMapping) (x : FieldMapping) : pyMaxBy l x ∈ x :: l := by
  induction l generalizing x with
  | nil => simp [pyMaxBy]
  | cons y ys ih =>
    rw [pyMaxBy]
    by_cases hc : x.confidence_score < y.confidence_score
    · rw [if_pos hc]
      rcases List.mem_cons.1 (ih y) with h | h
      · rw [h]; simp
      · simp [List.mem_cons, h]
    · rw [if_neg hc]
      rcases List.mem_cons.1 (ih x) with h | h
      · rw [h]; simp
      · simp [List.mem_cons, h]

theorem le_pyMaxBy (l : List FieldMapping) (x : FieldMapping) :
    ∀ y ∈ x :: l, y.confidence_score ≤ (pyMaxBy l x).confidence_score := by
  induction l generalizing x with
  | nil =>
    intro y hy
    rcases List.mem_cons.1 hy with h | h
    · subst h; simp [pyMaxBy]
    · simp at h
  | cons z zs ih =>
    intro y hy
    rw [pyMaxBy]
    have hw : x.confidence_score ≤
        (if x.confidence_score < z.confidence_score then z else x).confidence_score := by
      by_cases hc : x.confidence_score < z.confidence_score
      · rw [if_pos hc]; exact le_of_lt hc
      · rw [if_neg hc]
    have hwz : z.confidence_score ≤
        (if x.confidence_score < z.confidence_score then z else x).confidence_score := by
      by_cases hc : x.confidence_score < z.confidence_score
      · rw [if_pos hc]
      · rw [if_neg hc]; exact le_of_not_lt hc
    have hhead := ih (if x.confidence_score < z.confidence_score then z else x) _
      (List.mem_cons_self _ _)
    rcases List.mem_cons.1 hy with h | h
    · subst h; exact le_trans hw hhead
    · rcases List.mem_cons.1 h with h2 | h2
      · subst h2; exact le_trans hwz hhead
      · exact ih _ y (List.mem_cons_of_mem _ h2)

theorem pyMaxBy_first_max (l : List FieldMapping) (x : FieldMapping) :
    ∃ pre post, x :: l = pre ++ pyMaxBy l x :: post ∧
      ∀ z ∈ pre, z.confidence_score < (pyMaxBy l x).confidence_score := by
  induction l generalizing x with
  | nil => exact ⟨[], [], rfl, by simp⟩
  | cons y ys ih =>
    by_cases hc : x.confidence_score < y.confidence_score
    · obtain ⟨pre, post, heq, hlt⟩ := ih y
      rw [pyMaxBy, if_pos hc]
      refine ⟨x :: pre, post, ?_, ?_⟩
      · rw [List.cons_append, ← heq]
      · intro z hz
        rcases List.mem_cons.1 hz with h | h
        · subst h
          exact lt_of_lt_of_le hc (le_pyMaxBy ys y y (List.mem_cons_self _ _))
        · exact hlt z h
    · obtain ⟨pre, post, heq, hlt⟩ := ih x
      rw [pyMaxBy, if_neg hc]
      cases pre with
      | nil =>
        rw [List.nil_append] at heq
        injection heq with hx hpost
        refine ⟨[], y :: ys, ?_, by simp⟩
        rw [List.nil_append, ← hx]
      | cons p ps =>
        rw [List.cons_append] at heq
        injection heq with hxp hys
        refine ⟨x :: y :: ps, post, ?_, ?_⟩
        · rw [List.cons_append, List.cons_append, ← hys]
        · intro z hz
          have hxlt : x.confidence_score < (pyMaxBy ys x).confidence_score := by
            have := hlt p (List.mem_cons_self _ _)
            rwa [← hxp] at this
          rcases List.mem_cons.1 hz with h | h
          · subst h; exact hxlt
          · rcases List.mem_cons.1 h with h2 | h2
            · subst h2; exact lt_of_le_of_lt (le_of_not_lt hc) hxlt
            · exact hlt z (List.mem_cons_of_mem _ h2)

theorem mem_firstOccAux (l : List String) (a : String) :
    ∀ seen, (a ∈ firstOccAux l seen ↔ a ∈ l ∧ a ∉ seen) := by
  induction l with
  | nil => intro seen; simp [firstOccAux]
  | cons x xs ih =>
    intro seen
    rw [firstOccAux]
    by_cases hx : x ∈ seen
    · rw [if_pos hx, ih]
      constructor
      · rintro ⟨h1, h2⟩; exact ⟨List.mem_cons_of_mem _ h1, h2⟩
      · rintro ⟨h1, h2⟩
        rcases List.mem_cons.1 h1 with h | h
        · subst h; exact absurd hx h2
        · exact ⟨h, h2⟩
    · rw [if_neg hx]
      simp only [List.mem_cons, ih]
      constructor
      · rintro (h | ⟨h1, h2⟩)
        · subst h; exact ⟨Or.inl rfl, hx⟩
        · exact ⟨Or.inr h1, fun hs => h2 (Or.inr hs)⟩
      · rintro ⟨h | h, h2⟩
        · exact Or.inl h
        · by_cases hax : a = x
          · exact Or.inl hax
          · exact Or.inr ⟨h, fun hs => hs.elim hax h2⟩

theorem nodup_firstOccAux (l : List String) : ∀ seen, (firstOccAux l seen).Nodup := by
  induction l with
  | nil => intro seen; simp [firstOccAux]
  | cons x xs ih =>
    intro seen
    rw [firstOccAux]
    by_cases hx : x ∈ seen
    · rw [if_pos hx]; exact ih seen
    · rw [if_neg hx]
      refine List.nodup_cons.2 ⟨?_, ih _⟩
      rw [mem_firstOccAux]
      rintro ⟨-, h2⟩
      exact h2 (List.mem_cons_self _ _)

theorem firstOccAux_eq_self (l : List String) : ∀ seen, l.Nodup →
    (∀ a ∈ l, a ∉ seen) → firstOccAux l seen = l := by
  induction l with
  | nil => intro seen _ _; rfl
  | cons x xs ih =>
    intro seen hl hd
    rw [firstOccAux, if_neg (hd x (List.mem_cons_self _ _))]
    congr 1
    refine ih _ (List.nodup_cons.1 hl).2 ?_
    intro a ha hmem
    rcases List.mem_cons.1 hmem with h | h
    · subst h; exact (List.nodup_cons.1 hl).1 ha
    · exact hd a (List.mem_cons_of_mem _ ha) h

theorem mem_firstOccurrences (l : List String) (a : String) :
    a ∈ firstOccurrences l ↔ a ∈ l := by
  rw [firstOccurrences, mem_firstOccAux]
  simp

theorem nodup_firstOccurrences (l : List String) : (firstOccurrences l).Nodup :=
  nodup_firstOccAux l []

theorem firstOccurrences_eq_self (l : List String) (hl : l.Nodup) : firstOccurrences l = l :=
  firstOccAux_eq_self l [] hl (by simp)

theorem length_firstOccAux_le (l : List String) : ∀ seen, (firstOccAux l seen).length ≤ l.length := by
  induction l with
  | nil => intro seen; simp [firstOccAux]
  | cons x xs ih =>
    intro seen
    rw [firstOccAux]
    by_cases hx : x ∈ seen
    · rw [if_pos hx]
      exact le_trans (ih seen) (Nat.le_succ _)
    · rw [if_neg hx, List.length_cons, List.length_cons]
      exact Nat.succ_le_succ (ih _)

theorem length_firstOccurrences_le (l : List String) :
    (firstOccurrences l).length ≤ l.length :=
  length_firstOccAux_le l []

theorem length_firstOccurrences_mono (l1 l2 : List String) (h : l1 ⊆ l2) :
    (firstOccurrences l1).length ≤ (firstOccurrences l2).length := by
  have h1 : (firstOccurrences l1).Nodup := nodup_firstOccurrences l1
  have h2 : firstOccurrences l1 ⊆ firstOccurrences l2 := by
    intro a ha
    rw [mem_firstOccurrences] at ha ⊢
    exact h ha
  exact (h1.subperm h2).length_le

theorem resolve_eq_filterMap (m : List FieldMapping) :
    resolve_mapping_conflicts m =
      (firstOccurrences (m.map (fun x => x.target_field))).filterMap (conflict_survivor m) := by
  rw [resolve_mapping_conflicts]
  apply List.filterMap_congr
  intro t _
  rw [conflict_survivor]
  cases h : m.filter (fun x => x.target_field == t) with
  | nil => rfl
  | cons g gs =>
    cases gs with
    | nil => simp [pyMaxBy]
    | cons g2 gs2 => simp

theorem mem_group_target (m : List FieldMapping) (t : String) (x : FieldMapping)
    (hx : x ∈ m.filter (fun y => y.target_field == t)) : x.target_field = t :=
  eq_of_beq (List.mem_filter.1 hx).2

theorem mem_group_of_target (m : List FieldMapping) (x : FieldMapping) (hx : x ∈ m) :
    x ∈ m.filter (fun y => y.target_field == x.target_field) :=
  List.mem_filter.2 ⟨hx, beq_self_eq_true _⟩

theorem conflict_survivor_isSome (m : List FieldMapping) (t : String)
    (ht : t ∈ m.map (fun x => x.target_field)) : ∃ e, conflict_survivor m t = some e := by
  obtain ⟨x, hx, hxt⟩ := List.mem_map.1 ht
  have hmem : x ∈ m.filter (fun y => y.target_field == t) := by
    subst hxt
    exact mem_group_of_target m x hx
  rw [conflict_survivor]
  cases h : m.filter (fun y => y.target_field == t) with
  | nil => rw [h] at hmem; simp at hmem
  | cons g gs => exact ⟨pyMaxBy gs g, rfl⟩

theorem conflict_survivor_mem_group (m : List FieldMapping) (t : String) (e : FieldMapping)
    (h : conflict_survivor m t = some e) : e ∈ m.filter (fun y => y.target_field == t) := by
  rw [conflict_survivor] at h
  cases hf : m.filter (fun y => y.target_field == t) with
  | nil => rw [hf] at h; simp at h
  | cons g gs =>
    rw [hf] at h
    have he : e = pyMaxBy gs g := by injection h with h2; exact h2.symm
    rw [he]
    exact pyMaxBy_mem gs g

theorem conflict_survivor_target (m : List FieldMapping) (t : String) (e : FieldMapping)
    (h : conflict_survivor m t = some e) : e.target_field = t :=
  mem_group_target m t e (conflict_survivor_mem_group m t e h)

theorem conflict_survivor_mem (m : List FieldMapping) (t : String) (e : FieldMapping)
    (h : conflict_survivor m t = some e) : e ∈ m :=
  List.mem_of_mem_filter (conflict_survivor_mem_group m t e h)

theorem conflict_survivor_le (m : List FieldMapping) (t : String) (e : FieldMapping)
    (h : conflict_survivor m t = some e) :
    ∀ x ∈ m.filter (fun y => y.target_field == t), x.confidence_score ≤ e.confidence_score := by
  intro x hx
  rw [conflict_survivor] at h
  cases hf : m.filter (fun y => y.target_field == t) with
  | nil => rw [hf] at hx; simp at hx
  | cons g gs =>
    rw [hf] at h hx
    have he : e = pyMaxBy gs g := by injection h with h2; exact h2.symm
    rw [he]
    exact le_pyMaxBy gs g x hx

theorem mem_filterMap_survivor_target (m : List FieldMapping) (l : List String)
    (x : FieldMapping) (hx : x ∈ l.filterMap (conflict_survivor m)) : x.target_field ∈ l := by
  obtain ⟨t, ht, hs⟩ := List.mem_filterMap.1 hx
  rw [conflict_survivor_target m t x hs]
  exact ht

theorem filterMap_survivor_filter (m : List FieldMapping) (t : String) :
    ∀ (l : List String), l.Nodup →
      (l.filterMap (conflict_survivor m)).filter (fun x => x.target_field == t) =
        if t ∈ l then (conflict_survivor m t).toList else [] := by
  intro l
  induction l with
  | nil => intro _; simp
  | cons a l' ih =>
    intro hnd
    obtain ⟨hna, hnd'⟩ := List.nodup_cons.1 hnd
    rw [List.filterMap_cons]
    cases hsa : conflict_survivor m a with
    | none =>
      by_cases hta : t = a
      · subst hta
        rw [ih hnd', if_neg hna, if_pos (List.mem_cons_self _ _), hsa]
        rfl
      · rw [ih hnd']
        by_cases htl : t ∈ l'
        · rw [if_pos htl, if_pos (List.mem_cons_of_mem _ htl)]
        · rw [if_neg htl, if_neg (fun hm => (List.mem_cons.1 hm).elim hta htl)]
    | some e =>
      have het : e.target_field = a := conflict_survivor_target m a e hsa
      rw [List.filter_cons]
      by_cases hta : t = a
      · subst hta
        have hbeq : (e.target_field == t) = true := by rw [het]; exact beq_self_eq_true _
        rw [if_pos hbeq, if_pos (List.mem_cons_self _ _), hsa]
        have hrest : (l'.filterMap (conflict_survivor m)).filter
            (fun x => x.target_field == t) = [] := by
          rw [List.filter_eq_nil_iff]
          intro x hx hbx
          have := mem_filterMap_survivor_target m l' x hx
          rw [eq_of_beq hbx] at this
          exact hna this
        rw [hrest]
        rfl
      · have hbeq : ¬((e.target_field == t) = true) := by
          rw [het]
          intro hb
          exact hta (eq_of_beq hb).symm
        rw [if_neg hbeq, ih hnd']
        by_cases htl : t ∈ l'
        · rw [if_pos htl, if_pos (List.mem_cons_of_mem _ htl)]
        · rw [if_neg htl, if_neg (fun hm => (List.mem_cons.1 hm).elim hta htl)]

theorem resolve_filter_characterization (m : List FieldMapping) (t : String) :
    (resolve_mapping_conflicts m).filter (fun x => x.target_field == t) =
      if t ∈ m.map (fun x => x.target_field) then (conflict_survivor m t).toList else [] := by
  rw [resolve_eq_filterMap,
    filterMap_survivor_filter m t _ (nodup_firstOccurrences _)]
  by_cases ht : t ∈ m.map (fun x => x.target_field)
  · rw [if_pos ((mem_firstOccurrences _ _).2 ht), if_pos ht]
  · rw [if_neg (fun hm => ht ((mem_firstOccurrences _ _).1 hm)), if_neg ht]

theorem length_filterMap_all_some {α β : Type} (f : α → Option β) (l : List α)
    (h : ∀ a ∈ l, (f a).isSome) : (l.filterMap f).length = l.length := by
  induction l with
  | nil => rfl
  | cons a l' ih =>
    rw [List.filterMap_cons]
    cases hf : f a with
    | none =>
      have := h a (List.mem_cons_self _ _)
      rw [hf] at this
      simp at this
    | some b =>
      rw [List.length_cons, List.length_cons,
        ih (fun x hx => h x (List.mem_cons_of_mem _ hx))]

theorem resolve_length (m : List FieldMapping) :
    (resolve_mapping_conflicts m).length =
      (firstOccurrences (m.map (fun x => x.target_field))).length := by
  rw [resolve_eq_filterMap]
  apply length_filterMap_all_some
  intro t ht
  obtain ⟨e, he⟩ :=
    conflict_survivor_isSome m t ((mem_firstOccurrences _ _).1 ht)
  rw [he]
  rfl

theorem resolve_subset (m : List FieldMapping) (x : FieldMapping)
    (hx : x ∈ resolve_mapping_conflicts m) : x ∈ m := by
  rw [resolve_eq_filterMap] at hx
  obtain ⟨t, _, hs⟩ := List.mem_filterMap.1 hx
  exact conflict_survivor_mem m t x hs

theorem map_target_filterMap_survivor (m : List FieldMapping) :
    ∀ (l : List String), (∀ t ∈ l, t ∈ m.map (fun x => x.target_field)) →
      (l.filterMap (conflict_survivor m)).map (fun x => x.target_field) = l := by
  intro l
  induction l with
  | nil => intro _; rfl
  | cons a l' ih =>
    intro hl
    obtain ⟨e, he⟩ := conflict_survivor_isSome m a (hl a (List.mem_cons_self _ _))
    rw [List.filterMap_cons, he, List.map_cons,
      conflict_survivor_target m a e he,
      ih (fun t ht => hl t (List.mem_cons_of_mem _ ht))]

theorem resolve_map_target (m : List FieldMapping) :
    (resolve_mapping_conflicts m).map (fun x => x.target_field) =
      firstOccurrences (m.map (fun x => x.target_field)) := by
  rw [resolve_eq_filterMap]
  exact map_target_filterMap_survivor m _
    (fun t ht => (mem_firstOccurrences _ _).1 ht)

theorem resolve_targets_nodup (m : List FieldMapping) :
    ((resolve_mapping_conflicts m).map (fun x => x.target_field)).Nodup := by
  rw [resolve_map_target]
  exact nodup_firstOccurrences _

theorem resolve_of_nodup_targets (m : List FieldMapping)
    (h : (m.map (fun x => x.target_field)).Nodup) : resolve_mapping_conflicts m = m := by
  induction m with
  | nil => rfl
  | cons e rest ih =>
    rw [List.map_cons] at h
    obtain ⟨he, hrest⟩ := List.nodup_cons.1 h
    have hfilter_e : (e :: rest).filter (fun y => y.target_field == e.target_field) = [e] := by
      rw [List.filter_cons, if_pos (beq_self_eq_true _)]
      congr 1
      rw [List.filter_eq_nil_iff]
      intro x hx hbx
      exact he (by rw [← eq_of_beq hbx]; exact List.mem_map_of_mem _ hx)
    rw [resolve_eq_filterMap, List.map_cons, firstOccurrences, firstOccAux,
      if_neg (List.not_mem_nil _)]
    rw [firstOccAux_eq_self _ _ hrest
      (by intro a ha hmem
          rcases List.mem_cons.1 hmem with h2 | h2
          · subst h2; exact he ha
          · simp at h2)]
    rw [List.filterMap_cons]
    have hsurv_e : conflict_survivor (e :: rest) e.target_field = some e := by
      rw [conflict_survivor, hfilter_e]
      rfl
    rw [hsurv_e]
    show e :: (rest.map (fun x => x.target_field)).filterMap (conflict_survivor (e :: rest)) =
      e :: rest
    congr 1
    have hcongr : ∀ t ∈ rest.map (fun x => x.target_field),
        conflict_survivor (e :: rest) t = conflict_survivor rest t := by
      intro t ht
      have hne : (e.target_field == t) = false := by
        rw [beq_eq_false_iff_ne]
        intro heq
        exact he (heq ▸ ht)
      rw [conflict_survivor, conflict_survivor, List.filter_cons, hne]
      simp
    rw [List.filterMap_congr hcongr]
    have := ih hrest
    rw [resolve_eq_filterMap, firstOccurrences_eq_self _ hrest] at this
    exact this

theorem confidence_le_one (config : MapperConfig) (doc_field : DocumentField)
    (form_field : FormField) (ms : SimilarityMatrices) (i j : Nat) :
    calculate_confidence_score config doc_field form_field ms i j ≤ 1 :=
  min_le_right _ _

theorem type_bonus_eq_spec (doc_field : DocumentField) (form_field : FormField) :
    calculate_type_compatibility_bonus doc_field form_field =
      spec_type_bonus doc_field.field_type form_field.field_type := by
  rcases doc_field with ⟨dn, dv, dt, dc, dp⟩
  rcases form_field with ⟨fn, ft, fr, fo, fv, fp⟩
  cases dt <;> cases ft <;> rfl

theorem confidence_closed_form (config : MapperConfig) (doc_field : DocumentField)
    (form_field : FormField) (ms : SimilarityMatrices) (i j : Nat) :
    calculate_confidence_score config doc_field form_field ms i j =
      (if 0 < ((spec_active_provider_entries config ms i j).map Prod.fst).sum then
        min ((((spec_active_provider_entries config ms i j).map (fun p => p.1 * p.2)).sum +
          calculate_type_compatibility_bonus doc_field form_field * (1/10)) /
            ((spec_active_provider_entries config ms i j).map Prod.fst).sum) 1
      else 0) := by
  rcases ms with ⟨of, os, orb⟩
  cases of <;> cases os <;> cases orb <;>
    · simp only [calculate_confidence_score, spec_active_provider_entries, List.map_nil,
        List.map_cons, List.sum_nil, List.sum_cons, List.nil_append, List.cons_append,
        List.append_nil]
      try rw [apply_ite (fun z : ℚ => min z 1), min_eq_left (by norm_num : (0:ℚ) ≤ 1)]
      try norm_num
      try ring_nf

theorem mem_insertDesc (y : FieldMapping) (l : List FieldMapping) (x : FieldMapping) :
    x ∈ insertDesc y l ↔ x = y ∨ x ∈ l := by
  induction l with
  | nil => simp [insertDesc]
  | cons z zs ih =>
    rw [insertDesc]
    by_cases hc : z.confidence_score ≤ y.confidence_score
    · rw [if_pos hc]
      simp [List.mem_cons]
    · rw [if_neg hc]
      simp only [List.mem_cons, ih]
      tauto

theorem mem_sortByConfidenceDesc (l : List FieldMapping) (x : FieldMapping) :
    x ∈ sortByConfidenceDesc l ↔ x ∈ l := by
  induction l with
  | nil => simp [sortByConfidenceDesc]
  | cons y ys ih =>
    rw [sortByConfidenceDesc, mem_insertDesc, ih]
    simp [List.mem_cons]

theorem length_insertDesc (y : FieldMapping) (l : List FieldMapping) :
    (insertDesc y l).length = l.length + 1 := by
  induction l with
  | nil => rfl
  | cons z zs ih =>
    rw [insertDesc]
    by_cases hc : z.confidence_score ≤ y.confidence_score
    · rw [if_pos hc]; rfl
    · rw [if_neg hc, List.length_cons, ih, List.length_cons]

theorem length_sortByConfidenceDesc (l : List FieldMapping) :
    (sortByConfidenceDesc l).length = l.length := by
  induction l with
  | nil => rfl
  | cons y ys ih =>
    rw [sortByConfidenceDesc, length_insertDesc, ih, List.length_cons]

theorem mem_candidates_elim (config : MapperConfig) (doc_field : DocumentField)
    (form_fields : List FormField) (ms : SimilarityMatrices) (i : Nat) (x : FieldMapping)
    (hx : x ∈ find_mapping_candidates config doc_field form_fields ms i) :
    ∃ p ∈ form_fields.enum,
      config.similarity_threshold ≤ calculate_confidence_score config doc_field p.2 ms i p.1 ∧
      x = { source_field := doc_field.name
            target_field := p.2.name
            confidence_score := calculate_confidence_score config doc_field p.2 ms i p.1
            field_type := infer_field_type doc_field p.2
            matching_strategy := determine_matching_strategy ms i p.1 } := by
  simp only [find_mapping_candidates] at hx
  have hx2 := List.take_subset _ _ hx
  rw [mem_sortByConfidenceDesc] at hx2
  obtain ⟨p, hp, hfp⟩ := List.mem_filterMap.1 hx2
  refine ⟨p, hp, ?_⟩
  by_cases hc : config.similarity_threshold ≤
      calculate_confidence_score config doc_field p.2 ms i p.1
  · rw [if_pos hc] at hfp
    injection hfp with h
    exact ⟨hc, h.symm⟩
  · rw [if_neg hc] at hfp
    simp at hfp

theorem mem_candidates_conf_le_one (config : MapperConfig) (doc_field : DocumentField)
    (form_fields : List FormField) (ms : SimilarityMatrices) (i : Nat) (x : FieldMapping)
    (hx : x ∈ find_mapping_candidates config doc_field form_fields ms i) :
    x.confidence_score ≤ 1 := by
  obtain ⟨p, _, _, hx2⟩ := mem_candidates_elim config doc_field form_fields ms i x hx
  rw [hx2]
  exact confidence_le_one config doc_field p.2 ms i p.1

theorem mem_candidates_target (config : MapperConfig) (doc_field : DocumentField)
    (form_fields : List FormField) (ms : SimilarityMatrices) (i : Nat) (x : FieldMapping)
    (hx : x ∈ find_mapping_candidates config doc_field form_fields ms i) :
    x.target_field ∈ form_fields.map (fun f => f.name) := by
  obtain ⟨p, hp, _, hx2⟩ := mem_candidates_elim config doc_field form_fields ms i x hx
  rw [hx2]
  exact List.mem_map_of_mem _ (List.snd_mem_of_mem_enum hp)

theorem mem_best_mappings_elim (config : MapperConfig) (ms : SimilarityMatrices)
    (document_fields : List DocumentField) (form_fields : List FormField) (x : FieldMapping)
    (hx : x ∈ best_mappings config ms document_fields form_fields) :
    ∃ p ∈ document_fields.enum, ∃ c cs,
      find_mapping_candidates config p.2 form_fields ms p.1 = c :: cs ∧
      x = pyMaxBy cs c ∧ config.confidence_threshold ≤ x.confidence_score := by
  simp only [best_mappings] at hx
  obtain ⟨p, hp, hfp⟩ := List.mem_filterMap.1 hx
  cases hcand : find_mapping_candidates config p.2 form_fields ms p.1 with
  | nil => rw [hcand] at hfp; simp at hfp
  | cons c cs =>
    rw [hcand] at hfp
    simp only at hfp
    by_cases hth : config.confidence_threshold ≤ (pyMaxBy cs c).confidence_score
    · rw [if_pos hth] at hfp
      injection hfp with h
      subst h
      exact ⟨p, hp, c, cs, hcand, rfl, hth⟩
    · rw [if_neg hth] at hfp
      simp at hfp

theorem mem_best_mappings_conf (config : MapperConfig) (ms : SimilarityMatrices)
    (document_fields : List DocumentField) (form_fields : List FormField) (x : FieldMapping)
    (hx : x ∈ best_mappings config ms document_fields form_fields) :
    config.confidence_threshold ≤ x.confidence_score ∧ x.confidence_score ≤ 1 := by
  obtain ⟨p, hp, c, cs, hcand, hxeq, hth⟩ :=
    mem_best_mappings_elim config ms document_fields form_fields x hx
  refine ⟨hth, ?_⟩
  have hmem : x ∈ find_mapping_candidates config p.2 form_fields ms p.1 := by
    rw [hcand, hxeq]
    exact pyMaxBy_mem cs c
  exact mem_candidates_conf_le_one config p.2 form_fields ms p.1 x hmem

theorem mem_best_mappings_target (config : MapperConfig) (ms : SimilarityMatrices)
    (document_fields : List DocumentField) (form_fields : List FormField) (x : FieldMapping)
    (hx : x ∈ best_mappings config ms document_fields form_fields) :
    x.target_field ∈ form_fields.map (fun f => f.name) := by
  obtain ⟨p, hp, c, cs, hcand, hxeq, _⟩ :=
    mem_best_mappings_elim config ms document_fields form_fields x hx
  have hmem : x ∈ find_mapping_candidates config p.2 form_fields ms p.1 := by
    rw [hcand, hxeq]
    exact pyMaxBy_mem cs c
  exact mem_candidates_target config p.2 form_fields ms p.1 x hmem

theorem length_best_mappings_le (config : MapperConfig) (ms : SimilarityMatrices)
    (document_fields : List DocumentField) (form_fields : List FormField) :
    (best_mappings config ms document_fields form_fields).length ≤ document_fields.length := by
  rw [best_mappings]
  exact le_trans (List.length_filterMap_le _ _) (le_of_eq (List.enum_length))

theorem filterMap_subset_of_imp {α β : Type} (f g : α → Option β) (l : List α)
    (h : ∀ a ∈ l, ∀ b, f a = some b → g a = some b) :
    l.filterMap f ⊆ l.filterMap g := by
  intro b hb
  obtain ⟨a, ha, hfa⟩ := List.mem_filterMap.1 hb
  exact List.mem_filterMap.2 ⟨a, ha, h a ha b hfa⟩

theorem length_filterMap_mono {α β : Type} (f g : α → Option β) (l : List α)
    (h : ∀ a ∈ l, ∀ b, f a = some b → ∃ c, g a = some c) :
    (l.filterMap f).length ≤ (l.filterMap g).length := by
  induction l with
  | nil => simp
  | cons a l' ih =>
    have ih' := ih (fun a2 ha2 b hb => h a2 (List.mem_cons_of_mem _ ha2) b hb)
    rw [List.filterMap_cons, List.filterMap_cons]
    cases hf : f a with
    | none =>
      cases hg : g a with
      | none => exact ih'
      | some c => exact le_trans ih' (by rw [List.length_cons]; exact Nat.le_succ _)
    | some b =>
      obtain ⟨c, hc⟩ := h a (List.mem_cons_self _ _) b hf
      rw [hc, List.length_cons, List.length_cons]
      exact Nat.succ_le_succ ih'

theorem candidates_ct_irrelevant (config : MapperConfig) (c : ℚ) (doc_field : DocumentField)
    (form_fields : List FormField) (ms : SimilarityMatrices) (i : Nat) :
    find_mapping_candidates { config with confidence_threshold := c } doc_field form_fields ms i =
      find_mapping_candidates config doc_field form_fields ms i := rfl

theorem best_mappings_ct_mono (config : MapperConfig) (c : ℚ)
    (hc : c ≤ config.confidence_threshold) (ms : SimilarityMatrices)
    (document_fields : List DocumentField) (form_fields : List FormField) :
    best_mappings config ms document_fields form_fields ⊆
      best_mappings { config with confidence_threshold := c } ms document_fields form_fields := by
  rw [best_mappings, best_mappings]
  apply filterMap_subset_of_imp
  intro p _ b hfb
  simp only at hfb ⊢
  cases hcand : find_mapping_candidates config p.2 form_fields ms p.1 with
  | nil => rw [hcand] at hfb; simp at hfb
  | cons x cs =>
    rw [candidates_ct_irrelevant, hcand]
    rw [hcand] at hfb
    simp only at hfb ⊢
    by_cases hth : config.confidence_threshold ≤ (pyMaxBy cs x).confidence_score
    · rw [if_pos hth] at hfb
      rw [if_pos (le_trans hc hth)]
      exact hfb
    · rw [if_neg hth] at hfb
      simp at hfb

theorem confidence_st_irrelevant (config : MapperConfig) (st2 : ℚ)
    (doc_field : DocumentField) (form_field : FormField) (ms : SimilarityMatrices)
    (i j : Nat) :
    calculate_confidence_score { config with similarity_threshold := st2 }
        doc_field form_field ms i j =
      calculate_confidence_score config doc_field form_field ms i j := rfl

theorem candidates_length_st_mono (config : MapperConfig) (st2 : ℚ)
    (hst : config.similarity_threshold ≤ st2) (doc_field : DocumentField)
    (form_fields : List FormField) (ms : SimilarityMatrices) (i : Nat) :
    (find_mapping_candidates { config with similarity_threshold := st2 }
        doc_field form_fields ms i).length ≤
      (find_mapping_candidates config doc_field form_fields ms i).length := by
  simp only [find_mapping_candidates]
  rw [List.length_take, List.length_take, length_sortByConfidenceDesc,
    length_sortByConfidenceDesc]
  refine min_le_min (le_refl _) ?_
  apply length_filterMap_mono
  intro p _ b hfb
  simp only at hfb ⊢
  rw [confidence_st_irrelevant] at hfb
  by_cases hc2 : st2 ≤ calculate_confidence_score config doc_field p.2 ms i p.1
  · rw [if_pos (le_trans hst hc2)]
    exact ⟨_, rfl⟩
  · rw [if_neg hc2] at hfb
    simp at hfb

/-! ## Claim theorems -/

/-- C1 (counterexample): the source adds the type bonus *before* dividing by
the total weight, so with a single active provider (fuzzy, weight 0.3), a raw
matrix entry of 0, and identical declared types (bonus 0.2), the source
computes `(0 + 0.2·0.1)/0.3 = 1/15`, while the claimed formula
`(Σ w·m)/(Σ w) + 0.1·bonus` gives `0 + 0.02 = 1/50`. -/
theorem c1_fusion_formula_counterexample :
    calculate_confidence_score default_config
        { name := "a", field_type := FieldType.TEXT }
        { name := "b", field_type := FieldType.TEXT } single_zero_fuzzy_matrices 0 0 = 1/15 ∧
    spec_fused_confidence default_config
        { name := "a", field_type := FieldType.TEXT }
        { name := "b", field_type := FieldType.TEXT } single_zero_fuzzy_matrices 0 0 = 1/50 ∧
    (1/15 : ℚ) ≠ 1/50 :=
  ⟨by decide, by decide, by decide⟩

/-- C1 (amended): the fused confidence equals
`(Σ_p w_p·matrix_p[i][j] + 0.1·typeBonus(i,j)) / (Σ_p w_p)` capped above at 1
whenever the active-provider weight total is positive, and 0 otherwise — the
type bonus is normalized together with the provider scores, not added
afterwards; `typeBonus` is 0.2 on identical declared types, else the static
symmetric compatibility table (0.1–0.15), else 0; with no active providers
the confidence is 0 for every pair. -/
theorem c1_fused_confidence_amended (config : MapperConfig) (doc_field : DocumentField)
    (form_field : FormField) (ms : SimilarityMatrices) (i j : Nat) :
    (calculate_confidence_score config doc_field form_field ms i j =
      (if 0 < ((spec_active_provider_entries config ms i j).map Prod.fst).sum then
        min ((((spec_active_provider_entries config ms i j).map (fun p => p.1 * p.2)).sum +
          (1/10) * spec_type_bonus doc_field.field_type form_field.field_type) /
            ((spec_active_provider_entries config ms i j).map Prod.fst).sum) 1
      else 0)) ∧
    (spec_active_provider_entries config ms i j = [] →
      calculate_confidence_score config doc_field form_field ms i j = 0) := by
  constructor
  · rw [confidence_closed_form, type_bonus_eq_spec,
      mul_comm (spec_type_bonus doc_field.field_type form_field.field_type) ((1:ℚ)/10)]
  · intro h
    rw [confidence_closed_form, h]
    simp

/-- C1 (witness for the amended theorem): with no matrices present the
active-provider list is empty and the source's confidence is 0. -/
theorem c1_fused_confidence_amended_witness :
    spec_active_provider_entries default_config {} 0 0 = [] ∧
    calculate_confidence_score default_config exact_match_doc exact_match_form {} 0 0 = 0 :=
  ⟨rfl, (c1_fused_confidence_amended default_config exact_match_doc exact_match_form
    {} 0 0).2 rfl⟩

/-- C2: within each target group (groups are built in input order, as a
Python dict of lists), the resolver keeps exactly one mapping — a member of
the group attaining the maximal confidence such that every earlier group
member is strictly below it (so ties go to the earliest source in input
order); groups of size one pass through; consequently each target field name
survives in at most one mapping. -/
theorem c2_resolve_conflicts_spec (m : List FieldMapping) (t : String) :
    ((resolve_mapping_conflicts m).filter (fun x => x.target_field == t)).length ≤ 1 ∧
    (∀ g gs, m.filter (fun x => x.target_field == t) = g :: gs →
      ∃ e pre post,
        (resolve_mapping_conflicts m).filter (fun x => x.target_field == t) = [e] ∧
        g :: gs = pre ++ e :: post ∧
        (∀ z ∈ pre, z.confidence_score < e.confidence_score) ∧
        (∀ z ∈ g :: gs, z.confidence_score ≤ e.confidence_score)) := by
  constructor
  · rw [resolve_filter_characterization]
    by_cases ht : t ∈ m.map (fun x => x.target_field)
    · rw [if_pos ht]
      cases h : conflict_survivor m t <;> simp [Option.toList]
    · rw [if_neg ht]
      simp
  · intro g gs hgroup
    have hg : g ∈ m.filter (fun x => x.target_field == t) := by
      rw [hgroup]
      exact List.mem_cons_self _ _
    have ht : t ∈ m.map (fun x => x.target_field) :=
      List.mem_map.2 ⟨g, List.mem_of_mem_filter hg, mem_group_target m t g hg⟩
    have hsurv : conflict_survivor m t = some (pyMaxBy gs g) := by
      rw [conflict_survivor, hgroup]
    obtain ⟨pre, post, hdecomp, hlt⟩ := pyMaxBy_first_max gs g
    refine ⟨pyMaxBy gs g, pre, post, ?_, hdecomp, hlt, ?_⟩
    · rw [resolve_filter_characterization, if_pos ht, hsurv]
      rfl
    · exact le_pyMaxBy gs g

/-- C2 (witness): the spec's conflict scenario — two mappings onto
`"form_field"` at 0.8 and 0.7; the survivor group is as the theorem states. -/
theorem c2_resolve_conflicts_spec_witness :
    ([conflict_mapping1, conflict_mapping2].filter
        (fun x => x.target_field == "form_field") =
      conflict_mapping1 :: [conflict_mapping2]) ∧
    (∃ e pre post,
      (resolve_mapping_conflicts [conflict_mapping1, conflict_mapping2]).filter
          (fun x => x.target_field == "form_field") = [e] ∧
      conflict_mapping1 :: [conflict_mapping2] = pre ++ e :: post ∧
      (∀ z ∈ pre, z.confidence_score < e.confidence_score) ∧
      (∀ z ∈ conflict_mapping1 :: [conflict_mapping2],
        z.confidence_score ≤ e.confidence_score)) :=
  ⟨by decide,
    (c2_resolve_conflicts_spec [conflict_mapping1, conflict_mapping2] "form_field").2
      conflict_mapping1 [conflict_mapping2] (by decide)⟩

/-- C6: `_resolve_mapping_conflicts` is idempotent, including the order of the
returned list: its output has pairwise-distinct target fields, on which a
second run is the identity. -/
theorem c6_resolve_idempotent (m : List FieldMapping) :
    resolve_mapping_conflicts (resolve_mapping_conflicts m) = resolve_mapping_conflicts m :=
  resolve_of_nodup_targets _ (resolve_targets_nodup m)

/-- C3 (code bug, evaluation at the failing input): mapping source
`"firstName"` against target `"firstName"` with the repository test fixture's
configuration (fuzzy and rule-based enabled, semantic disabled) yields exactly
one mapping with confidence 1 > 0.9 — but its strategy is FUZZY:
`_determine_matching_strategy` resolves the 1.0-vs-1.0 tie by dict insertion
order (`fuzzy` first), not by any rule-based-first priority, and no
HYBRID-margin logic exists.  The repository's own test
(`test_exact_match_mapping`) asserts RULE_BASED here and the claim requires
RULE_BASED or EXACT. -/
theorem c3_exact_match_strategy_eval :
    map_fields exact_match_test_config exact_match_test_matrices [exact_match_doc]
        [exact_match_form] = [exact_match_result] ∧
    9/10 < exact_match_result.confidence_score ∧
    exact_match_result.matching_strategy = MatchingStrategy.FUZZY ∧
    exact_match_result.matching_strategy ≠ MatchingStrategy.RULE_BASED ∧
    exact_match_result.matching_strategy ≠ MatchingStrategy.EXACT :=
  ⟨by decide, by decide, rfl, by decide, by decide⟩

/-- C4: with both thresholds in `[0,1]`, every mapping returned by
`map_fields` has a confidence score in `[0,1]`: the selection step filters at
`confidence_threshold ≥ 0` from below, `_calculate_confidence_score` caps at 1
from above, and conflict resolution only keeps already-selected mappings. -/
theorem c4_confidence_bounds (config : MapperConfig) (ms : SimilarityMatrices)
    (document_fields : List DocumentField) (form_fields : List FormField)
    (_hst : 0 ≤ config.similarity_threshold ∧ config.similarity_threshold ≤ 1)
    (hct : 0 ≤ config.confidence_threshold ∧ config.confidence_threshold ≤ 1) :
    ∀ x ∈ map_fields config ms document_fields form_fields,
      0 ≤ x.confidence_score ∧ x.confidence_score ≤ 1 := by
  intro x hx
  simp only [map_fields] at hx
  have hx2 : x ∈ best_mappings config ms document_fields form_fields :=
    resolve_subset _ x hx
  obtain ⟨h1, h2⟩ := mem_best_mappings_conf config ms document_fields form_fields x hx2
  exact ⟨le_trans hct.1 h1, h2⟩

/-- C4 (witness): the exact-match scenario run under the test fixture's
thresholds returns a mapping whose confidence is within `[0,1]`. -/
theorem c4_confidence_bounds_witness :
    (0 ≤ exact_match_test_config.similarity_threshold ∧
      exact_match_test_config.similarity_threshold ≤ 1) ∧
    (0 ≤ exact_match_test_config.confidence_threshold ∧
      exact_match_test_config.confidence_threshold ≤ 1) ∧
    (0 ≤ exact_match_result.confidence_score ∧ exact_match_result.confidence_score ≤ 1) :=
  ⟨⟨by decide, by decide⟩, ⟨by decide, by decide⟩,
    c4_confidence_bounds exact_match_test_config exact_match_test_matrices
      [exact_match_doc] [exact_match_form] ⟨by decide, by decide⟩ ⟨by decide, by decide⟩
      exact_match_result (by decide)⟩

/-- C5: with inputs and matrices fixed, lowering `confidence_threshold` never
decreases the number of mappings `map_fields` returns, and raising
`similarity_threshold` never increases the candidate count
`_find_mapping_candidates` produces for any single source field. -/
theorem c5_threshold_monotonicity (config : MapperConfig) (ms : SimilarityMatrices)
    (document_fields : List DocumentField) (form_fields : List FormField)
    (ct2 st2 : ℚ) (hct : ct2 ≤ config.confidence_threshold)
    (hst : config.similarity_threshold ≤ st2) :
    ((map_fields config ms document_fields form_fields).length ≤
      (map_fields { config with confidence_threshold := ct2 } ms document_fields
        form_fields).length) ∧
    ∀ (doc_field : DocumentField) (i : Nat),
      (find_mapping_candidates { config with similarity_threshold := st2 }
          doc_field form_fields ms i).length ≤
        (find_mapping_candidates config doc_field form_fields ms i).length := by
  constructor
  · simp only [map_fields]
    rw [resolve_length, resolve_length]
    apply length_firstOccurrences_mono
    apply List.map_subset
    exact best_mappings_ct_mono config ct2 hct ms document_fields form_fields
  · intro d i
    exact candidates_length_st_mono config st2 hst d form_fields ms i

/-- C5 (witness): concrete threshold changes on the exact-match scenario. -/
theorem c5_threshold_monotonicity_witness :
    ((2/5 : ℚ) ≤ exact_match_test_config.confidence_threshold) ∧
    (exact_match_test_config.similarity_threshold ≤ (7/10 : ℚ)) ∧
    ((map_fields exact_match_test_config exact_match_test_matrices [exact_match_doc]
        [exact_match_form]).length ≤
      (map_fields { exact_match_test_config with confidence_threshold := 2/5 }
          exact_match_test_matrices [exact_match_doc] [exact_match_form]).length) ∧
    ((find_mapping_candidates { exact_match_test_config with similarity_threshold := 7/10 }
        exact_match_doc [exact_match_form] exact_match_test_matrices 0).length ≤
      (find_mapping_candidates exact_match_test_config exact_match_doc [exact_match_form]
          exact_match_test_matrices 0).length) :=
  ⟨by decide, by decide,
    (c5_threshold_monotonicity exact_match_test_config exact_match_test_matrices
      [exact_match_doc] [exact_match_form] (2/5) (7/10) (by decide) (by decide)).1,
    (c5_threshold_monotonicity exact_match_test_config exact_match_test_matrices
      [exact_match_doc] [exact_match_form] (2/5) (7/10) (by decide) (by decide)).2
      exact_match_doc 0⟩

/-- C10: each document field contributes at most one mapping (its best
candidate, if it clears the final floor), and conflict resolution only keeps
mappings that were already selected; hence the output size is bounded by the
number of document fields and by the number of form fields. -/
theorem c10_output_size_bound (config : MapperConfig) (ms : SimilarityMatrices)
    (document_fields : List DocumentField) (form_fields : List FormField) :
    (∀ x ∈ map_fields config ms document_fields form_fields,
      x ∈ best_mappings config ms document_fields form_fields) ∧
    (map_fields config ms document_fields form_fields).length ≤
      min document_fields.length form_fields.length := by
  constructor
  · intro x hx
    simp only [map_fields] at hx
    exact resolve_subset _ x hx
  · rw [le_min_iff]
    constructor
    · simp only [map_fields]
      rw [resolve_length]
      refine le_trans (length_firstOccurrences_le _) ?_
      rw [List.length_map]
      exact length_best_mappings_le config ms document_fields form_fields
    · simp only [map_fields]
      rw [resolve_length]
      have hn := nodup_firstOccurrences
        ((best_mappings config ms document_fields form_fields).map (fun x => x.target_field))
      have hsub : firstOccurrences
          ((best_mappings config ms document_fields form_fields).map
            (fun x => x.target_field)) ⊆ form_fields.map (fun f => f.name) := by
        intro a ha
        rw [mem_firstOccurrences] at ha
        obtain ⟨x, hx, hxa⟩ := List.mem_map.1 ha
        rw [← hxa]
        exact mem_best_mappings_target config ms document_fields form_fields x hx
      refine le_trans (hn.subperm hsub).length_le ?_
      rw [List.length_map]

/-- C7 (counterexample): with the default weights, all raw entries 1, and
identical names, both the EMAIL/EMAIL pair and the TEXT/EMAIL pair reach the
1.0 cap, so the EMAIL/EMAIL confidence is not strictly higher. -/
theorem c7_type_bonus_ordering_counterexample :
    calculate_confidence_score default_config
        { name := "email", field_type := FieldType.TEXT }
        { name := "email", field_type := FieldType.EMAIL } all_ones_matrices 0 0 =
      calculate_confidence_score default_config
        { name := "email", field_type := FieldType.EMAIL }
        { name := "email", field_type := FieldType.EMAIL } all_ones_matrices 0 0 ∧
    ¬ (calculate_confidence_score default_config
        { name := "email", field_type := FieldType.TEXT }
        { name := "email", field_type := FieldType.EMAIL } all_ones_matrices 0 0 <
       calculate_confidence_score default_config
        { name := "email", field_type := FieldType.EMAIL }
        { name := "email", field_type := FieldType.EMAIL } all_ones_matrices 0 0) :=
  ⟨by decide, by decide⟩

/-- C7 (amended): with matrices and configuration shared, the declared-EMAIL/
EMAIL pair scores a strictly higher fused confidence than the TEXT/EMAIL pair
provided the total active weight is positive and the EMAIL/EMAIL score does
not exceed the 1.0 cap (without these provisos the two can coincide: both 0
with no active provider, or both clamped to 1). -/
theorem c7_type_bonus_ordering_amended (config : MapperConfig) (ms : SimilarityMatrices)
    (i j : Nat) (doc_name doc_value form_name : String)
    (hW : 0 < ((spec_active_provider_entries config ms i j).map Prod.fst).sum)
    (hcap : (((spec_active_provider_entries config ms i j).map
        (fun p => p.1 * p.2)).sum + 1/50) /
        ((spec_active_provider_entries config ms i j).map Prod.fst).sum ≤ 1) :
    calculate_confidence_score config
        { name := doc_name, value := doc_value, field_type := FieldType.TEXT }
        { name := form_name, field_type := FieldType.EMAIL } ms i j <
      calculate_confidence_score config
        { name := doc_name, value := doc_value, field_type := FieldType.EMAIL }
        { name := form_name, field_type := FieldType.EMAIL } ms i j := by
  rw [confidence_closed_form, confidence_closed_form]
  have hb1 : calculate_type_compatibility_bonus
      { name := doc_name, value := doc_value, field_type := FieldType.TEXT }
      { name := form_name, field_type := FieldType.EMAIL } = 1/10 := rfl
  have hb2 : calculate_type_compatibility_bonus
      { name := doc_name, value := doc_value, field_type := FieldType.EMAIL }
      { name := form_name, field_type := FieldType.EMAIL } = 1/5 := rfl
  rw [hb1, hb2, if_pos hW, if_pos hW]
  have h100 : (1/10 : ℚ) * (1/10) = 1/100 := by norm_num
  have h50 : (1/5 : ℚ) * (1/10) = 1/50 := by norm_num
  rw [h100, h50, min_eq_left hcap]
  refine lt_of_le_of_lt (min_le_left _ _) ?_
  rw [div_lt_div_iff_of_pos_right hW]
  linarith

/-- C7 (witness): default weights, all raw entries 0.8 — total weight 1,
EMAIL/EMAIL fused score 0.82 (below the cap), TEXT/EMAIL 0.81, strictly
smaller. -/
theorem c7_type_bonus_ordering_amended_witness :
    (0 < ((spec_active_provider_entries default_config all_p8_matrices 0 0).map
      Prod.fst).sum) ∧
    ((((spec_active_provider_entries default_config all_p8_matrices 0 0).map
        (fun p => p.1 * p.2)).sum + 1/50) /
      ((spec_active_provider_entries default_config all_p8_matrices 0 0).map
        Prod.fst).sum ≤ 1) ∧
    (calculate_confidence_score default_config
        { name := "e", value := "", field_type := FieldType.TEXT }
        { name := "e", field_type := FieldType.EMAIL } all_p8_matrices 0 0 <
      calculate_confidence_score default_config
        { name := "e", value := "", field_type := FieldType.EMAIL }
        { name := "e", field_type := FieldType.EMAIL } all_p8_matrices 0 0) :=
  ⟨by decide, by decide,
    c7_type_bonus_ordering_amended default_config all_p8_matrices 0 0 "e" "" "e"
      (by decide) (by decide)⟩

/-- C8 (counterexample): a configuration with a negative fusion weight and
both thresholds outside `[0,1]` is accepted by `__init__` as-is — no
validation error, no clamping, no reinterpretation. -/
theorem c8_no_validation_counterexample :
    invalid_config.fuzzy_ratio_weight < 0 ∧ 1 < invalid_config.similarity_threshold ∧
    invalid_config.confidence_threshold < 0 ∧
    mapper_init_config (some invalid_config) true = invalid_config :=
  ⟨by decide, by decide, by decide, rfl⟩

/-- C8 (amended): `__init__` performs no configuration validation: every
threshold and weight of the supplied configuration — valid or not — is stored
unchanged (only the semantic-matching flag can be forced off when NLP
initialization fails), and a missing configuration falls back to the
defaults. -/
theorem c8_config_accepted_unvalidated (config : MapperConfig) (nlp_init_ok : Bool) :
    (mapper_init_config (some config) nlp_init_ok).similarity_threshold =
        config.similarity_threshold ∧
    (mapper_init_config (some config) nlp_init_ok).confidence_threshold =
        config.confidence_threshold ∧
    (mapper_init_config (some config) nlp_init_ok).fuzzy_ratio_weight =
        config.fuzzy_ratio_weight ∧
    (mapper_init_config (some config) nlp_init_ok).semantic_weight =
        config.semantic_weight ∧
    (mapper_init_config (some config) nlp_init_ok).rule_weight = config.rule_weight ∧
    (mapper_init_config (some config) nlp_init_ok).max_suggestions =
        config.max_suggestions ∧
    mapper_init_config none nlp_init_ok = mapper_init_config (some default_config)
        nlp_init_ok := by
  refine ⟨?_, ?_, ?_, ?_, ?_, ?_, rfl⟩ <;>
    · simp only [mapper_init_config, Option.getD_some]
      by_cases h : config.enable_semantic_matching && !nlp_init_ok
      · rw [if_pos h]
      · rw [if_neg h]

/-- C9 (counterexample): with the semantic path active, a failing embedding
collaborator, and a failing `fit_transform` (sklearn raises for instance on an
empty vocabulary — stop-word-only names such as "the" / "a"), the TF-IDF
fallback propagates the exception and the whole `map_fields` batch aborts:
no best-effort zero matrix is returned. -/
theorem c9_tfidf_fallback_counterexample :
    map_fieldsE default_config (fun _ _ => 1) (Except.error "bert failure")
        (fun _ => Except.error "empty vocabulary")
        (fun _ _ _ _ => 0) true (fun _ _ => false)
        [{ name := "the", value := "x", field_type := FieldType.TEXT }]
        [{ name := "a", field_type := FieldType.TEXT }] =
      Except.error "empty vocabulary" ∧
    ∀ (zeros : List FieldMapping),
      map_fieldsE default_config (fun _ _ => 1) (Except.error "bert failure")
          (fun _ => Except.error "empty vocabulary")
          (fun _ _ _ _ => 0) true (fun _ _ => false)
          [{ name := "the", value := "x", field_type := FieldType.TEXT }]
          [{ name := "a", field_type := FieldType.TEXT }] ≠ Except.ok zeros := by
  have he : map_fieldsE default_config (fun _ _ => 1) (Except.error "bert failure")
      (fun _ => Except.error "empty vocabulary")
      (fun _ _ _ _ => 0) true (fun _ _ => false)
      [{ name := "the", value := "x", field_type := FieldType.TEXT }]
      [{ name := "a", field_type := FieldType.TEXT }] =
      (Except.error "empty vocabulary" : Except String (List FieldMapping)) := rfl
  refine ⟨he, ?_⟩
  intro zeros h
  rw [he] at h
  exact Except.noConfusion h

/-- C9 (amended): the batch aborts exactly when the semantic provider is
active, its embedding path fails, *and* the TF-IDF fallback's `fit_transform`
fails on the combined corpus; when the fallback succeeds (or the semantic
provider is inactive or healthy) no error escapes — but on double failure the
error propagates instead of a zero matrix. -/
theorem c9_semantic_error_characterization (config : MapperConfig)
    (fuzzy_matrix : Nat → Nat → ℚ) (bert_embed_cosine : Except String (Nat → Nat → ℚ))
    (fit_transform : List String → Except String (List (List ℚ)))
    (cos_sim : List (List ℚ) → List (List ℚ) → Nat → Nat → ℚ)
    (bert_model_available : Bool) (re_search : String → String → Bool)
    (document_fields : List DocumentField) (form_fields : List FormField) :
    (∃ e, map_fieldsE config fuzzy_matrix bert_embed_cosine fit_transform cos_sim
        bert_model_available re_search document_fields form_fields = Except.error e) ↔
      (config.enable_semantic_matching = true ∧ bert_model_available = true ∧
       (∃ e1, bert_embed_cosine = Except.error e1) ∧
       (∃ e2, fit_transform (document_fields.map DocumentField.name ++
          form_fields.map FormField.name) = Except.error e2)) := by
  by_cases hg : config.enable_semantic_matching && bert_model_available
  · cases hb : bert_embed_cosine with
    | ok mB =>
      simp [map_fieldsE, compute_similarity_matricesE, compute_semantic_matrixE,
        compute_tfidf_similarityE, hg, hb]
    | error eB =>
      cases hf : fit_transform (document_fields.map DocumentField.name ++
          form_fields.map FormField.name) with
      | ok tm =>
        simp [map_fieldsE, compute_similarity_matricesE, compute_semantic_matrixE,
          compute_tfidf_similarityE, hg, hb, hf]
      | error eF =>
        simp only [Bool.and_eq_true] at hg
        simp [map_fieldsE, compute_similarity_matricesE, compute_semantic_matrixE,
          compute_tfidf_similarityE, hg, hb, hf]
  · simp only [Bool.and_eq_true, not_and_or, Bool.not_eq_true] at hg
    rcases hg with hg1 | hg2
    · simp [map_fieldsE, compute_similarity_matricesE, hg1]
    · simp [map_fieldsE, compute_similarity_matricesE, hg2]
